import Mathlib

/-!
Shallow embedding of the real-time presentation relay server of the church
presentation app (the Node/socket.io server in `src/unnamed/part_001`,
lines 134-297).  The server keeps four process-wide JavaScript `Map`s
(`presentationWindows`, `controlPanels`, `messageQueue`, `heartbeats`) and
mutates them inside synchronous event handlers.  We model a JS `Map` as an
association list with unique keys in insertion order (`JMap`), a socket id
as a `Nat`, and each handler as a pure function from server state to server
state together with the list of messages emitted to sockets and the value
passed to the acknowledgement callback.

The abstraction choices, in order of appearance in the source:
* `io.sockets.sockets.get(id)` succeeding with a connected socket is
  modelled by membership of `id` in the `connected` list; a transport that
  drops without its `disconnect` event having fired yet is a state where
  the id is absent from `connected` but still present in the role maps
  (this is exactly the state the `messageQueue` branch of the
  `presentationUpdate` handler is written for).
* `io.to(id).emit(...)` delivers only when the target is connected; a
  direct `socket.emit` on the socket whose event is being handled always
  delivers.
* Reconnection is modelled as the `connection` handler firing again for
  the same identifier, matching the specification's view that a mailbox is
  keyed by a stable connection identifier.
* The handlers' `try`/`catch` wrappers are dead in the pure model (none of
  the wrapped operations can throw), so the `error` acknowledgement branch
  is never taken.
-/

set_option linter.unusedVariables false

namespace ChurchRelay

/-- Registry metadata stored per registered connection:
`\x7b connectedAt, lastHeartbeat \x7d` (part_001 lines 163-166, 188-191). -/
structure Meta where
  connectedAt : Nat
  lastHeartbeat : Nat
deriving DecidableEq

/-- A presentation state update payload `\x7b song, segment \x7d` as sent by the
control client (`sendUpdate` in the socket service; either field may be
null).  Song/segment references are opaque; we use `Option Nat`. -/
structure Payload where
  song : Option Nat
  segment : Option Nat
deriving DecidableEq

/-- Application-level event names used by the relay. -/
inductive EvName where
  | presentationUpdate
  | presentationConnected
  | presentationDisconnected
  | pong
deriving DecidableEq

/-- The data attached to an emitted or queued message.  The relay can send
an update payload, a registry-metadata object (what the shadowed `data`
variable of the `presentationUpdate` handler actually holds), an
`\x7b id \x7d` object, or nothing. -/
inductive MsgData where
  | payload (p : Payload)
  | meta (m : Meta)
  | idField (id : Nat)
  | noData
deriving DecidableEq

/-- An entry of the per-target message queue: `\x7b event, data \x7d`
(part_001 lines 218-221). -/
structure QueuedMsg where
  event : EvName
  data : MsgData
deriving DecidableEq

/-- A message emitted to a socket: target id, event name, data. -/
structure Emission where
  target : Nat
  event : EvName
  data : MsgData
deriving DecidableEq

/-- The value passed to an acknowledgement callback:
`\x7b success: true \x7d` or `\x7b error: message \x7d`. -/
inductive Ack where
  | success
  | error (msg : String)
deriving DecidableEq

/-- A JavaScript `Map` with `Nat` keys: association list, unique keys,
insertion order. -/
abbrev JMap (α : Type) := List (Nat × α)

/-- `Map.prototype.get`. -/
def mapGet {α : Type} (m : JMap α) (k : Nat) : Option α :=
  match m with
  | [] => none
  | e :: rest => if e.1 = k then some e.2 else mapGet rest k

/-- `Map.prototype.has`. -/
def mapHas {α : Type} (m : JMap α) (k : Nat) : Bool :=
  (mapGet m k).isSome

/-- `Map.prototype.set`: replace in place if the key exists, else append. -/
def mapSet {α : Type} (m : JMap α) (k : Nat) (v : α) : JMap α :=
  match m with
  | [] => [(k, v)]
  | e :: rest => if e.1 = k then (k, v) :: rest else e :: mapSet rest k v

/-- `Map.prototype.delete`. -/
def mapDelete {α : Type} (m : JMap α) (k : Nat) : JMap α :=
  match m with
  | [] => []
  | e :: rest => if e.1 = k then rest else e :: mapDelete rest k

/-- The keys of a `JMap` are pairwise distinct (true of every real JS
`Map`; preserved by all operations). -/
def KeysNodup {α : Type} (m : JMap α) : Prop :=
  (m.map Prod.fst).Nodup

instance {α : Type} (m : JMap α) : Decidable (KeysNodup m) := by
  unfold KeysNodup; infer_instance

/-- The process-wide mutable state of the relay server
(part_001 lines 134-137, plus the set of currently connected sockets). -/
structure ServerState where
  presentationWindows : JMap Meta
  controlPanels : JMap Meta
  messageQueue : JMap (List QueuedMsg)
  heartbeats : JMap Nat
  connected : List Nat
deriving DecidableEq

def emptyState : ServerState := ⟨[], [], [], [], []⟩

/-- `HEARTBEAT_INTERVAL = 30000` (part_001 line 140). -/
def HEARTBEAT_INTERVAL : Nat := 30000

/-- `HEARTBEAT_TIMEOUT = 60000` (part_001 line 141). -/
def HEARTBEAT_TIMEOUT : Nat := 60000

/-- `staleTimeout = 5 * 60 * 1000` (part_001 line 282). -/
def staleTimeout : Nat := 5 * 60 * 1000

/-- The `connection` handler (part_001 lines 143-152): stamp the heartbeat,
flush any queued messages to the newly connected socket, delete the queue.
The socket becomes connected. -/
def onConnection (st : ServerState) (id now : Nat) : ServerState × List Emission :=
  let st1 : ServerState :=
    { st with
      connected := if id ∈ st.connected then st.connected else id :: st.connected,
      heartbeats := mapSet st.heartbeats id now }
  let flushed := ((mapGet st1.messageQueue id).getD []).map
    (fun msg => ⟨id, msg.event, msg.data⟩)
  ({ st1 with messageQueue := mapDelete st1.messageQueue id }, flushed)

/-- The `ping` handler (part_001 lines 155-158): update the `heartbeats`
map entry and reply `pong`.  Note: the role maps' `lastHeartbeat` metadata
is NOT touched. -/
def onPing (st : ServerState) (id now : Nat) : ServerState × List Emission :=
  ({ st with heartbeats := mapSet st.heartbeats id now },
   [⟨id, EvName.pong, MsgData.noData⟩])

/-- The `registerPresentation` handler (part_001 lines 160-183): record
(or overwrite) the display registration, acknowledge success, notify every
control panel via `io.to(controlId)` (delivered only if that control is
connected).  The `data` argument is ignored; nothing in the body can
throw, so the `error` acknowledgement branch is unreachable. -/
def onRegisterPresentation (st : ServerState) (id now : Nat) (rd : MsgData) :
    ServerState × List Emission × Ack :=
  let st1 : ServerState :=
    { st with presentationWindows := mapSet st.presentationWindows id ⟨now, now⟩ }
  let ems := st1.controlPanels.foldl
    (fun acc c =>
      acc ++ (if c.1 ∈ st1.connected
              then [⟨c.1, EvName.presentationConnected, MsgData.idField id⟩]
              else []))
    []
  (st1, ems, Ack.success)

/-- The `registerControl` handler (part_001 lines 185-202): record (or
overwrite) the control registration and acknowledge success.  The `data`
argument is ignored; the `error` branch is unreachable. -/
def onRegisterControl (st : ServerState) (id now : Nat) (rd : MsgData) :
    ServerState × List Emission × Ack :=
  ({ st with controlPanels := mapSet st.controlPanels id ⟨now, now⟩ },
   [], Ack.success)

/-- One iteration of the `presentationWindows.forEach` loop of the
`presentationUpdate` handler (part_001 lines 209-223).  The loop's callback
parameter `data` shadows the handler's payload argument, so what is
emitted (or queued) is the display's registry metadata `wm.2`, not the
update payload. -/
def fanoutStep (acc : ServerState × List Emission) (wm : Nat × Meta) :
    ServerState × List Emission :=
  let s := acc.1
  if wm.1 ∈ s.connected then
    (s, acc.2 ++ [⟨wm.1, EvName.presentationUpdate, MsgData.meta wm.2⟩])
  else
    ({ s with
        messageQueue := mapSet s.messageQueue wm.1
          (((mapGet s.messageQueue wm.1).getD [])
            ++ [⟨EvName.presentationUpdate, MsgData.meta wm.2⟩]) },
     acc.2)

/-- The `presentationUpdate` handler (part_001 lines 204-234): fan the
message out to every registered display (live delivery when connected,
queue otherwise), then acknowledge `\x7b success: true \x7d`.  The sender
`senderId` and the payload `pData` are used only in a log line and
(because of the shadowing described at `fanoutStep`) never reach any
display. -/
def onPresentationUpdate (st : ServerState) (senderId : Nat) (pData : MsgData) :
    ServerState × List Emission × Ack :=
  let r := st.presentationWindows.foldl fanoutStep (st, [])
  (r.1, r.2, Ack.success)

/-- The `disconnect` handler (part_001 lines 236-256), fired after the
transport has closed.  If the departing connection was a registered
display, notify every connected control panel — the inner
`const socket = io.sockets.sockets.get(controlId)` shadows the outer
socket, so the emitted `\x7b id: socket.id \x7d` carries the CONTROL's own
id, not the departed display's.  Then delete the connection's control
entry, message queue and heartbeat. -/
def onDisconnect (st : ServerState) (id : Nat) : ServerState × List Emission :=
  let st0 : ServerState := { st with connected := st.connected.filter (fun c => c != id) }
  if mapHas st0.presentationWindows id then
    let st1 : ServerState :=
      { st0 with presentationWindows := mapDelete st0.presentationWindows id }
    let ems := st1.controlPanels.foldl
      (fun acc c =>
        acc ++ (if c.1 ∈ st1.connected
                then [⟨c.1, EvName.presentationDisconnected, MsgData.idField c.1⟩]
                else []))
      []
    ({ st1 with
        controlPanels := mapDelete st1.controlPanels id,
        messageQueue := mapDelete st1.messageQueue id,
        heartbeats := mapDelete st1.heartbeats id }, ems)
  else
    ({ st0 with
        controlPanels := mapDelete st0.controlPanels id,
        messageQueue := mapDelete st0.messageQueue id,
        heartbeats := mapDelete st0.heartbeats id }, [])

/-- One iteration of the heartbeat sweep over a snapshot entry
`(socketId, lastBeat)` (part_001 lines 267-276): when the beat is older
than `HEARTBEAT_TIMEOUT`, force-disconnect the socket if it still exists
(which fires the `disconnect` handler) and delete the heartbeat entry. -/
def sweepStep (now : Nat) (acc : ServerState × List Emission) (e : Nat × Nat) :
    ServerState × List Emission :=
  if HEARTBEAT_TIMEOUT < now - e.2 then
    let r := if e.1 ∈ acc.1.connected
             then
               let dis := onDisconnect acc.1 e.1
               (dis.1, acc.2 ++ dis.2)
             else acc
    ({ r.1 with heartbeats := mapDelete r.1.heartbeats e.1 }, r.2)
  else acc

/-- The heartbeat check interval body (part_001 lines 265-277): iterate a
snapshot of `heartbeats` and evict every timed-out connection. -/
def heartbeatSweep (now : Nat) (st : ServerState) : ServerState × List Emission :=
  st.heartbeats.foldl (sweepStep now) (st, [])

/-- The stale-connection sweep (part_001 lines 280-297): delete every
role-map entry whose `lastHeartbeat` metadata is older than
`staleTimeout`, iterating a snapshot of each map. -/
def staleSweep (now : Nat) (st : ServerState) : ServerState :=
  let pw := st.presentationWindows.foldl
    (fun m e => if staleTimeout < now - e.2.lastHeartbeat then mapDelete m e.1 else m)
    st.presentationWindows
  let cp := st.controlPanels.foldl
    (fun m e => if staleTimeout < now - e.2.lastHeartbeat then mapDelete m e.1 else m)
    st.controlPanels
  { st with presentationWindows := pw, controlPanels := cp }

/-- One `presentationUpdate` broadcast issued while accumulating the
emissions of a whole sequence. -/
def broadcastStep (sender : Nat) (acc : ServerState × List Emission) (p : MsgData) :
    ServerState × List Emission :=
  let r := onPresentationUpdate acc.1 sender p
  (r.1, acc.2 ++ r.2.1)

/-- A sequence of `presentationUpdate` broadcasts from a single sender,
accumulating the emissions of each handler invocation in issue order. -/
def broadcastList (st : ServerState) (sender : Nat) (ps : List MsgData) :
    ServerState × List Emission :=
  ps.foldl (broadcastStep sender) (st, [])

/-- The emissions of a list that are addressed to a given socket. -/
def emsTo (ems : List Emission) (id : Nat) : List Emission :=
  ems.filter (fun e => decide (e.target = id))

/-- The `presentationUpdate` events of a list that are addressed to a
given socket. -/
def updatesTo (ems : List Emission) (id : Nat) : List Emission :=
  ems.filter (fun e => decide (e.target = id ∧ e.event = EvName.presentationUpdate))

/-- All four server maps have duplicate-free keys (every reachable state
of the server satisfies this, since JS `Map`s cannot hold duplicate
keys). -/
def WF (st : ServerState) : Prop :=
  KeysNodup st.presentationWindows ∧ KeysNodup st.controlPanels ∧
  KeysNodup st.messageQueue ∧ KeysNodup st.heartbeats

instance (st : ServerState) : Decidable (WF st) := by
  unfold WF; infer_instance

/- Concrete states used to settle individual claims. -/

def c1State : ServerState :=
  ⟨[(1, ⟨10, 10⟩)], [(2, ⟨10, 10⟩)], [], [(1, 10), (2, 10)], [1, 2]⟩

def c3wState : ServerState := ⟨[(1, ⟨0, 0⟩)], [], [], [(1, 0)], []⟩

def c5State : ServerState := ⟨[(1, ⟨0, 0⟩)], [(2, ⟨0, 0⟩)], [], [(1, 0), (2, 0)], [2]⟩

def c6State : ServerState :=
  ⟨[(1, ⟨2, 2⟩), (3, ⟨4, 4⟩)], [], [], [(1, 0), (3, 0)], [1]⟩

def c7State : ServerState :=
  ⟨[(1, ⟨5, 5⟩)], [(2, ⟨5, 5⟩)], [], [(1, 5), (2, 5)], [1, 2]⟩

def c8ExState : ServerState :=
  ⟨[(1, ⟨0, 0⟩)], [(2, ⟨0, 0⟩)],
   [(1, [⟨EvName.presentationUpdate, MsgData.meta ⟨0, 0⟩⟩])],
   [(1, 0), (2, 70000)], [2]⟩

def c8wState : ServerState :=
  ⟨[(1, ⟨0, 0⟩)], [(2, ⟨0, 0⟩)],
   [(1, [⟨EvName.presentationUpdate, MsgData.meta ⟨0, 0⟩⟩])],
   [(1, 0), (2, 100000)], [1, 2]⟩

/-! ### Lemmas about the `JMap` operations -/

theorem mapGet_mapSet_self {α : Type} (m : JMap α) (k : Nat) (v : α) :
    mapGet (mapSet m k v) k = some v := by
  induction m with
  | nil => simp [mapSet, mapGet]
  | cons e rest ih =>
    by_cases h : e.1 = k
    · simp [mapSet, mapGet, h]
    · simp [mapSet, mapGet, h, ih]

theorem mapGet_mapSet_ne {α : Type} (m : JMap α) (k k2 : Nat) (v : α) (h : k2 ≠ k) :
    mapGet (mapSet m k v) k2 = mapGet m k2 := by
  induction m with
  | nil => simp [mapSet, mapGet, Ne.symm h]
  | cons e rest ih =>
    by_cases he : e.1 = k
    · simp [mapSet, mapGet, he, Ne.symm h]
    · simp only [mapSet, if_neg he]
      by_cases he2 : e.1 = k2
      · simp [mapGet, he2]
      · simp [mapGet, he2, ih]

theorem mapGet_mapDelete_ne {α : Type} (m : JMap α) (k k2 : Nat) (h : k2 ≠ k) :
    mapGet (mapDelete m k) k2 = mapGet m k2 := by
  induction m with
  | nil => rfl
  | cons e rest ih =>
    by_cases he : e.1 = k
    · simp only [mapDelete, if_pos he, mapGet]
      rw [if_neg]
      rw [he]
      exact Ne.symm h
    · simp only [mapDelete, if_neg he]
      by_cases he2 : e.1 = k2
      · simp [mapGet, he2]
      · simp [mapGet, he2, ih]

theorem mapGet_eq_none_of_not_mem {α : Type} (m : JMap α) (k : Nat)
    (h : k ∉ m.map Prod.fst) : mapGet m k = none := by
  induction m with
  | nil => rfl
  | cons e rest ih =>
    simp only [List.map_cons, List.mem_cons] at h
    push_neg at h
    simp [mapGet, Ne.symm h.1, ih h.2]

theorem not_mem_of_mapGet_eq_none {α : Type} (m : JMap α) (k : Nat)
    (h : mapGet m k = none) : k ∉ m.map Prod.fst := by
  induction m with
  | nil => simp
  | cons e rest ih =>
    by_cases he : e.1 = k
    · simp [mapGet, he] at h
    · simp only [mapGet, if_neg he] at h
      simp only [List.map_cons, List.mem_cons]
      push_neg
      exact ⟨fun hh => he hh.symm, ih h⟩

theorem mem_of_mapGet_eq_some {α : Type} (m : JMap α) (k : Nat) (v : α)
    (h : mapGet m k = some v) : (k, v) ∈ m := by
  induction m with
  | nil => simp [mapGet] at h
  | cons e rest ih =>
    by_cases he : e.1 = k
    · simp only [mapGet, if_pos he, Option.some_inj] at h
      have : e = (k, v) := by
        cases e
        simp_all
      rw [this] at *
      exact List.mem_cons_self _ _
    · simp only [mapGet, if_neg he] at h
      exact List.mem_cons_of_mem _ (ih h)

theorem mapGet_eq_none_of_not_has {α : Type} (m : JMap α) (k : Nat)
    (h : mapHas m k = false) : mapGet m k = none := by
  unfold mapHas at h
  cases hg : mapGet m k with
  | none => rfl
  | some v => rw [hg] at h; simp at h

theorem keys_mapDelete_sublist {α : Type} (m : JMap α) (k : Nat) :
    ((mapDelete m k).map Prod.fst).Sublist (m.map Prod.fst) := by
  induction m with
  | nil => simp [mapDelete]
  | cons e rest ih =>
    by_cases he : e.1 = k
    · simp only [mapDelete, if_pos he, List.map_cons]
      exact List.Sublist.cons _ (List.Sublist.refl _)
    · simp only [mapDelete, if_neg he, List.map_cons]
      exact List.Sublist.cons₂ _ ih

theorem nodup_mapDelete {α : Type} (m : JMap α) (k : Nat) (h : KeysNodup m) :
    KeysNodup (mapDelete m k) :=
  List.Nodup.sublist (keys_mapDelete_sublist m k) h

theorem mapGet_mapDelete_none {α : Type} (m : JMap α) (k k2 : Nat)
    (h : mapGet m k2 = none) : mapGet (mapDelete m k) k2 = none :=
  mapGet_eq_none_of_not_mem _ _
    (fun hmem => not_mem_of_mapGet_eq_none _ _ h
      ((keys_mapDelete_sublist m k).subset hmem))

theorem mapGet_mapDelete_self {α : Type} (m : JMap α) (k : Nat) (h : KeysNodup m) :
    mapGet (mapDelete m k) k = none := by
  induction m with
  | nil => rfl
  | cons e rest ih =>
    unfold KeysNodup at h
    simp only [List.map_cons, List.nodup_cons] at h
    by_cases he : e.1 = k
    · simp only [mapDelete, if_pos he]
      exact mapGet_eq_none_of_not_mem rest k (he ▸ h.1)
    · simp only [mapDelete, if_neg he, mapGet, if_neg he]
      exact ih h.2

theorem mem_keys_mapSet {α : Type} (m : JMap α) (k x : Nat) (v : α) :
    x ∈ (mapSet m k v).map Prod.fst ↔ x ∈ m.map Prod.fst ∨ x = k := by
  induction m with
  | nil => simp [mapSet]
  | cons e rest ih =>
    by_cases he : e.1 = k
    · simp only [mapSet, if_pos he, List.map_cons, List.mem_cons]
      rw [← he]
      tauto
    · simp only [mapSet, if_neg he, List.map_cons, List.mem_cons, ih]
      tauto

theorem nodup_mapSet {α : Type} (m : JMap α) (k : Nat) (v : α) (h : KeysNodup m) :
    KeysNodup (mapSet m k v) := by
  induction m with
  | nil => simp [mapSet, KeysNodup]
  | cons e rest ih =>
    unfold KeysNodup at *
    simp only [List.map_cons, List.nodup_cons] at h
    by_cases he : e.1 = k
    · simp only [mapSet, if_pos he, List.map_cons, List.nodup_cons]
      exact ⟨he ▸ h.1, h.2⟩
    · simp only [mapSet, if_neg he, List.map_cons, List.nodup_cons]
      refine ⟨?_, ih h.2⟩
      intro hx
      rcases (mem_keys_mapSet rest k e.1 v).mp hx with h1 | h2
      · exact h.1 h1
      · exact he h2

/-! ### Lemmas about the fan-out loop of the `presentationUpdate` handler -/

theorem fanoutStep_pw (acc : ServerState × List Emission) (wm : Nat × Meta) :
    (fanoutStep acc wm).1.presentationWindows = acc.1.presentationWindows := by
  unfold fanoutStep
  by_cases h : wm.1 ∈ acc.1.connected <;> simp [h]

theorem fanoutStep_connected (acc : ServerState × List Emission) (wm : Nat × Meta) :
    (fanoutStep acc wm).1.connected = acc.1.connected := by
  unfold fanoutStep
  by_cases h : wm.1 ∈ acc.1.connected <;> simp [h]

theorem fanoutStep_cp (acc : ServerState × List Emission) (wm : Nat × Meta) :
    (fanoutStep acc wm).1.controlPanels = acc.1.controlPanels := by
  unfold fanoutStep
  by_cases h : wm.1 ∈ acc.1.connected <;> simp [h]

theorem fanoutStep_hb (acc : ServerState × List Emission) (wm : Nat × Meta) :
    (fanoutStep acc wm).1.heartbeats = acc.1.heartbeats := by
  unfold fanoutStep
  by_cases h : wm.1 ∈ acc.1.connected <;> simp [h]

theorem fanoutStep_mq_ne (acc : ServerState × List Emission) (wm : Nat × Meta)
    (w : Nat) (h : wm.1 ≠ w) :
    mapGet (fanoutStep acc wm).1.messageQueue w = mapGet acc.1.messageQueue w := by
  unfold fanoutStep
  by_cases hc : wm.1 ∈ acc.1.connected
  · simp [hc]
  · simp [hc, mapGet_mapSet_ne _ _ _ _ (Ne.symm h)]

theorem fanoutStep_mq_nodup (acc : ServerState × List Emission) (wm : Nat × Meta)
    (h : KeysNodup acc.1.messageQueue) : KeysNodup (fanoutStep acc wm).1.messageQueue := by
  unfold fanoutStep
  by_cases hc : wm.1 ∈ acc.1.connected
  · simpa [hc] using h
  · simpa [hc] using nodup_mapSet _ _ _ h

theorem fanout_fold_pw (l : List (Nat × Meta)) :
    ∀ acc : ServerState × List Emission,
    (l.foldl fanoutStep acc).1.presentationWindows = acc.1.presentationWindows := by
  induction l with
  | nil => intro acc; rfl
  | cons e rest ih => intro acc; rw [List.foldl_cons, ih, fanoutStep_pw]

theorem fanout_fold_connected (l : List (Nat × Meta)) :
    ∀ acc : ServerState × List Emission,
    (l.foldl fanoutStep acc).1.connected = acc.1.connected := by
  induction l with
  | nil => intro acc; rfl
  | cons e rest ih => intro acc; rw [List.foldl_cons, ih, fanoutStep_connected]

theorem fanout_fold_cp (l : List (Nat × Meta)) :
    ∀ acc : ServerState × List Emission,
    (l.foldl fanoutStep acc).1.controlPanels = acc.1.controlPanels := by
  induction l with
  | nil => intro acc; rfl
  | cons e rest ih => intro acc; rw [List.foldl_cons, ih, fanoutStep_cp]

theorem fanout_fold_hb (l : List (Nat × Meta)) :
    ∀ acc : ServerState × List Emission,
    (l.foldl fanoutStep acc).1.heartbeats = acc.1.heartbeats := by
  induction l with
  | nil => intro acc; rfl
  | cons e rest ih => intro acc; rw [List.foldl_cons, ih, fanoutStep_hb]

theorem fanout_fold_mq_nodup (l : List (Nat × Meta)) :
    ∀ acc : ServerState × List Emission, KeysNodup acc.1.messageQueue →
    KeysNodup (l.foldl fanoutStep acc).1.messageQueue := by
  induction l with
  | nil => intro acc h; exact h
  | cons e rest ih =>
    intro acc h
    rw [List.foldl_cons]
    exact ih _ (fanoutStep_mq_nodup _ _ h)

theorem fanout_fold_mq_not_mem (l : List (Nat × Meta)) :
    ∀ (acc : ServerState × List Emission) (w : Nat), w ∉ l.map Prod.fst →
    mapGet (l.foldl fanoutStep acc).1.messageQueue w = mapGet acc.1.messageQueue w := by
  induction l with
  | nil => intro acc w h; rfl
  | cons e rest ih =>
    intro acc w h
    simp only [List.map_cons, List.mem_cons] at h
    push_neg at h
    rw [List.foldl_cons, ih _ _ h.2, fanoutStep_mq_ne _ _ _ (Ne.symm h.1)]

theorem fanout_fold_mq_append (l : List (Nat × Meta)) :
    ∀ (acc : ServerState × List Emission) (w : Nat) (m : Meta),
    (l.map Prod.fst).Nodup → (w, m) ∈ l → w ∉ acc.1.connected →
    mapGet (l.foldl fanoutStep acc).1.messageQueue w
      = some ((mapGet acc.1.messageQueue w).getD []
          ++ [⟨EvName.presentationUpdate, MsgData.meta m⟩]) := by
  induction l with
  | nil => intro acc w m _ hm _; simp at hm
  | cons e rest ih =>
    intro acc w m hn hm hw
    simp only [List.map_cons, List.nodup_cons] at hn
    rcases List.mem_cons.mp hm with he | he
    · rw [List.foldl_cons,
          fanout_fold_mq_not_mem rest _ w (by rw [← he] at hn; exact hn.1)]
      rw [← he]
      unfold fanoutStep
      simp [hw, mapGet_mapSet_self]
    · have hek : e.1 ≠ w := by
        intro hh
        apply hn.1
        rw [hh]
        exact List.mem_map_of_mem Prod.fst he
      rw [List.foldl_cons]
      rw [ih _ w m hn.2 he (by rw [fanoutStep_connected]; exact hw),
          fanoutStep_mq_ne _ _ _ hek]

theorem fanout_fold_ems_mono (l : List (Nat × Meta)) :
    ∀ (acc : ServerState × List Emission) (e : Emission),
    e ∈ acc.2 → e ∈ (l.foldl fanoutStep acc).2 := by
  induction l with
  | nil => intro acc e h; exact h
  | cons a rest ih =>
    intro acc e h
    rw [List.foldl_cons]
    apply ih
    unfold fanoutStep
    by_cases hc : a.1 ∈ acc.1.connected
    · simp only [if_pos hc]
      exact List.mem_append_left _ h
    · simpa only [if_neg hc] using h

theorem fanout_fold_emits (l : List (Nat × Meta)) :
    ∀ (acc : ServerState × List Emission) (w : Nat) (m : Meta),
    (w, m) ∈ l → w ∈ acc.1.connected →
    (⟨w, EvName.presentationUpdate, MsgData.meta m⟩ : Emission) ∈ (l.foldl fanoutStep acc).2 := by
  induction l with
  | nil => intro acc w m hm _; simp at hm
  | cons a rest ih =>
    intro acc w m hm hw
    rcases List.mem_cons.mp hm with he | he
    · rw [List.foldl_cons]
      apply fanout_fold_ems_mono
      rw [← he]
      unfold fanoutStep
      simp [hw]
    · rw [List.foldl_cons]
      exact ih _ w m he (by rw [fanoutStep_connected]; exact hw)

/-! ### Lemmas about the disconnect handler and the heartbeat sweep -/

/-- Closed form of the `disconnect` handler. -/
theorem onDisconnect_eq (st : ServerState) (id : Nat) :
    onDisconnect st id =
      if mapHas st.presentationWindows id then
        (⟨mapDelete st.presentationWindows id, mapDelete st.controlPanels id,
          mapDelete st.messageQueue id, mapDelete st.heartbeats id,
          st.connected.filter (fun c => c != id)⟩,
         st.controlPanels.foldl
           (fun acc c =>
             acc ++ (if c.1 ∈ st.connected.filter (fun x => x != id)
                     then [⟨c.1, EvName.presentationDisconnected, MsgData.idField c.1⟩]
                     else []))
           [])
      else
        (⟨st.presentationWindows, mapDelete st.controlPanels id,
          mapDelete st.messageQueue id, mapDelete st.heartbeats id,
          st.connected.filter (fun c => c != id)⟩, []) := by
  unfold onDisconnect
  by_cases h : mapHas st.presentationWindows id <;> simp [h]

theorem onDisconnect_self_none (st : ServerState) (id : Nat) (hwf : WF st) :
    mapGet (onDisconnect st id).1.presentationWindows id = none ∧
    mapGet (onDisconnect st id).1.controlPanels id = none ∧
    mapGet (onDisconnect st id).1.messageQueue id = none ∧
    mapGet (onDisconnect st id).1.heartbeats id = none := by
  obtain ⟨hp, hc, hq, hh⟩ := hwf
  rw [onDisconnect_eq]
  by_cases h : mapHas st.presentationWindows id = true
  · simp only [if_pos h]
    exact ⟨mapGet_mapDelete_self _ _ hp, mapGet_mapDelete_self _ _ hc,
           mapGet_mapDelete_self _ _ hq, mapGet_mapDelete_self _ _ hh⟩
  · simp only [if_neg h]
    exact ⟨mapGet_eq_none_of_not_has _ _ (by simpa using h),
           mapGet_mapDelete_self _ _ hc,
           mapGet_mapDelete_self _ _ hq, mapGet_mapDelete_self _ _ hh⟩

theorem onDisconnect_ne (st : ServerState) (id d : Nat) (h : id ≠ d) :
    mapGet (onDisconnect st id).1.presentationWindows d = mapGet st.presentationWindows d ∧
    mapGet (onDisconnect st id).1.controlPanels d = mapGet st.controlPanels d ∧
    mapGet (onDisconnect st id).1.messageQueue d = mapGet st.messageQueue d ∧
    mapGet (onDisconnect st id).1.heartbeats d = mapGet st.heartbeats d ∧
    (d ∈ st.connected → d ∈ (onDisconnect st id).1.connected) := by
  rw [onDisconnect_eq]
  by_cases hh : mapHas st.presentationWindows id = true
  · simp only [if_pos hh]
    refine ⟨mapGet_mapDelete_ne _ _ _ (Ne.symm h), mapGet_mapDelete_ne _ _ _ (Ne.symm h),
            mapGet_mapDelete_ne _ _ _ (Ne.symm h), mapGet_mapDelete_ne _ _ _ (Ne.symm h), ?_⟩
    intro hd
    simp only [List.mem_filter]
    exact ⟨hd, by simpa [bne_iff_ne] using Ne.symm h⟩
  · simp only [if_neg hh]
    refine ⟨by trivial, mapGet_mapDelete_ne _ _ _ (Ne.symm h),
            mapGet_mapDelete_ne _ _ _ (Ne.symm h), mapGet_mapDelete_ne _ _ _ (Ne.symm h), ?_⟩
    intro hd
    simp only [List.mem_filter]
    exact ⟨hd, by simpa [bne_iff_ne] using Ne.symm h⟩

theorem onDisconnect_keeps_none (st : ServerState) (id d : Nat) :
    (mapGet st.presentationWindows d = none →
      mapGet (onDisconnect st id).1.presentationWindows d = none) ∧
    (mapGet st.controlPanels d = none →
      mapGet (onDisconnect st id).1.controlPanels d = none) ∧
    (mapGet st.messageQueue d = none →
      mapGet (onDisconnect st id).1.messageQueue d = none) ∧
    (mapGet st.heartbeats d = none →
      mapGet (onDisconnect st id).1.heartbeats d = none) := by
  rw [onDisconnect_eq]
  by_cases hh : mapHas st.presentationWindows id = true
  · simp only [if_pos hh]
    exact ⟨mapGet_mapDelete_none _ _ _, mapGet_mapDelete_none _ _ _,
           mapGet_mapDelete_none _ _ _, mapGet_mapDelete_none _ _ _⟩
  · simp only [if_neg hh]
    exact ⟨fun x => x, mapGet_mapDelete_none _ _ _,
           mapGet_mapDelete_none _ _ _, mapGet_mapDelete_none _ _ _⟩

theorem onDisconnect_WF (st : ServerState) (id : Nat) (h : WF st) :
    WF (onDisconnect st id).1 := by
  obtain ⟨hp, hc, hq, hh⟩ := h
  rw [onDisconnect_eq]
  by_cases hb : mapHas st.presentationWindows id = true
  · simp only [if_pos hb]
    exact ⟨nodup_mapDelete _ _ hp, nodup_mapDelete _ _ hc,
           nodup_mapDelete _ _ hq, nodup_mapDelete _ _ hh⟩
  · simp only [if_neg hb]
    exact ⟨hp, nodup_mapDelete _ _ hc, nodup_mapDelete _ _ hq, nodup_mapDelete _ _ hh⟩

theorem sweepStep_evicts (now : Nat) (acc : ServerState × List Emission) (d tb : Nat)
    (hwf : WF acc.1) (ht : HEARTBEAT_TIMEOUT < now - tb) (hc : d ∈ acc.1.connected) :
    mapGet (sweepStep now acc (d, tb)).1.presentationWindows d = none ∧
    mapGet (sweepStep now acc (d, tb)).1.controlPanels d = none ∧
    mapGet (sweepStep now acc (d, tb)).1.messageQueue d = none ∧
    mapGet (sweepStep now acc (d, tb)).1.heartbeats d = none := by
  unfold sweepStep
  simp only [if_pos ht, if_pos hc]
  obtain ⟨h1, h2, h3, h4⟩ := onDisconnect_self_none acc.1 d hwf
  exact ⟨h1, h2, h3, mapGet_mapDelete_none _ _ _ h4⟩

theorem sweepStep_ne (now : Nat) (acc : ServerState × List Emission) (e : Nat × Nat)
    (d : Nat) (h : e.1 ≠ d) :
    (d ∈ acc.1.connected → d ∈ (sweepStep now acc e).1.connected) := by
  unfold sweepStep
  by_cases ht : HEARTBEAT_TIMEOUT < now - e.2
  · simp only [if_pos ht]
    by_cases hc : e.1 ∈ acc.1.connected
    · simp only [if_pos hc]
      exact (onDisconnect_ne acc.1 e.1 d h).2.2.2.2
    · simp only [if_neg hc]
      exact fun x => x
  · simp only [if_neg ht]
    exact fun x => x

theorem sweepStep_keeps_none (now : Nat) (acc : ServerState × List Emission)
    (e : Nat × Nat) (d : Nat) :
    (mapGet acc.1.presentationWindows d = none →
      mapGet (sweepStep now acc e).1.presentationWindows d = none) ∧
    (mapGet acc.1.controlPanels d = none →
      mapGet (sweepStep now acc e).1.controlPanels d = none) ∧
    (mapGet acc.1.messageQueue d = none →
      mapGet (sweepStep now acc e).1.messageQueue d = none) ∧
    (mapGet acc.1.heartbeats d = none →
      mapGet (sweepStep now acc e).1.heartbeats d = none) := by
  unfold sweepStep
  by_cases ht : HEARTBEAT_TIMEOUT < now - e.2
  · simp only [if_pos ht]
    by_cases hc : e.1 ∈ acc.1.connected
    · simp only [if_pos hc]
      obtain ⟨k1, k2, k3, k4⟩ := onDisconnect_keeps_none acc.1 e.1 d
      exact ⟨k1, k2, k3, fun hx => mapGet_mapDelete_none _ _ _ (k4 hx)⟩
    · simp only [if_neg hc]
      exact ⟨fun x => x, fun x => x, fun x => x,
             fun hx => mapGet_mapDelete_none _ _ _ hx⟩
  · simp only [if_neg ht]
    exact ⟨fun x => x, fun x => x, fun x => x, fun x => x⟩

theorem sweepStep_WF (now : Nat) (acc : ServerState × List Emission) (e : Nat × Nat)
    (h : WF acc.1) : WF (sweepStep now acc e).1 := by
  unfold sweepStep
  by_cases ht : HEARTBEAT_TIMEOUT < now - e.2
  · simp only [if_pos ht]
    by_cases hc : e.1 ∈ acc.1.connected
    · simp only [if_pos hc]
      have hw := onDisconnect_WF acc.1 e.1 h
      exact ⟨hw.1, hw.2.1, hw.2.2.1, nodup_mapDelete _ _ hw.2.2.2⟩
    · simp only [if_neg hc]
      exact ⟨h.1, h.2.1, h.2.2.1, nodup_mapDelete _ _ h.2.2.2⟩
  · simp only [if_neg ht]
    exact h

theorem sweep_fold_keeps_none (now d : Nat) (l : List (Nat × Nat)) :
    ∀ acc : ServerState × List Emission,
    mapGet acc.1.presentationWindows d = none →
    mapGet acc.1.controlPanels d = none →
    mapGet acc.1.messageQueue d = none →
    mapGet acc.1.heartbeats d = none →
    mapGet (l.foldl (sweepStep now) acc).1.presentationWindows d = none ∧
    mapGet (l.foldl (sweepStep now) acc).1.controlPanels d = none ∧
    mapGet (l.foldl (sweepStep now) acc).1.messageQueue d = none ∧
    mapGet (l.foldl (sweepStep now) acc).1.heartbeats d = none := by
  induction l with
  | nil => intro acc h1 h2 h3 h4; exact ⟨h1, h2, h3, h4⟩
  | cons e rest ih =>
    intro acc h1 h2 h3 h4
    rw [List.foldl_cons]
    obtain ⟨k1, k2, k3, k4⟩ := sweepStep_keeps_none now acc e d
    exact ih _ (k1 h1) (k2 h2) (k3 h3) (k4 h4)

theorem sweep_fold_removes (now d tb : Nat) (l : List (Nat × Nat)) :
    ∀ acc : ServerState × List Emission,
    (l.map Prod.fst).Nodup → (d, tb) ∈ l → HEARTBEAT_TIMEOUT < now - tb →
    d ∈ acc.1.connected → WF acc.1 →
    mapGet (l.foldl (sweepStep now) acc).1.presentationWindows d = none ∧
    mapGet (l.foldl (sweepStep now) acc).1.controlPanels d = none ∧
    mapGet (l.foldl (sweepStep now) acc).1.messageQueue d = none ∧
    mapGet (l.foldl (sweepStep now) acc).1.heartbeats d = none := by
  induction l with
  | nil => intro acc _ hm _ _ _; simp at hm
  | cons e rest ih =>
    intro acc hn hm ht hc hwf
    simp only [List.map_cons, List.nodup_cons] at hn
    rcases List.mem_cons.mp hm with he | he
    · rw [List.foldl_cons]
      have hv := sweepStep_evicts now acc d tb hwf ht hc
      rw [he] at hv
      exact sweep_fold_keeps_none now d rest _ hv.1 hv.2.1 hv.2.2.1 hv.2.2.2
    · have hek : e.1 ≠ d := by
        intro hh
        apply hn.1
        rw [hh]
        exact List.mem_map_of_mem Prod.fst he
      rw [List.foldl_cons]
      exact ih _ hn.2 he ht (sweepStep_ne now acc e d hek hc)
        (sweepStep_WF now acc e hwf)

theorem foldl_append_if {α β : Type} (P : α → Prop) [DecidablePred P] (f : α → β)
    (l : List α) : ∀ init : List β,
    l.foldl (fun acc c => acc ++ if P c then [f c] else []) init
      = init ++ (l.filter (fun c => decide (P c))).map f := by
  induction l with
  | nil => intro init; simp
  | cons a rest ih =>
    intro init
    rw [List.foldl_cons, ih]
    by_cases h : P a
    · simp [h]
    · simp [h]

/-- The notifications produced by the disconnect handler for a registered
display: every control panel whose socket is still connected (and is not
the departing socket itself) receives `presentationDisconnected` carrying
its own identifier (the shadowing bug at part_001 line 245). -/
theorem onDisconnect_ems (st : ServerState) (id : Nat)
    (h : mapHas st.presentationWindows id = true) :
    (onDisconnect st id).2
      = (st.controlPanels.filter (fun c => decide (c.1 ∈ st.connected ∧ c.1 ≠ id))).map
          (fun c => ⟨c.1, EvName.presentationDisconnected, MsgData.idField c.1⟩) := by
  have hd : (onDisconnect st id).2
      = st.controlPanels.foldl
          (fun acc c =>
            acc ++ (if c.1 ∈ st.connected.filter (fun x => x != id)
                    then [⟨c.1, EvName.presentationDisconnected, MsgData.idField c.1⟩]
                    else []))
          [] := by
    rw [onDisconnect_eq, if_pos h]
  rw [hd]
  rw [foldl_append_if
    (fun c : Nat × Meta => c.1 ∈ st.connected.filter (fun x => x != id))
    (fun c : Nat × Meta =>
      (⟨c.1, EvName.presentationDisconnected, MsgData.idField c.1⟩ : Emission))
    st.controlPanels []]
  rw [List.nil_append]
  congr 1
  apply List.filter_congr
  intro c _
  apply decide_eq_decide.mpr
  simp [List.mem_filter, bne_iff_ne]

/-! ### Lemmas about sequences of broadcasts -/

theorem onPresentationUpdate_pw (st : ServerState) (sender : Nat) (p : MsgData) :
    (onPresentationUpdate st sender p).1.presentationWindows = st.presentationWindows := by
  unfold onPresentationUpdate
  simp [fanout_fold_pw]

theorem onPresentationUpdate_connected (st : ServerState) (sender : Nat) (p : MsgData) :
    (onPresentationUpdate st sender p).1.connected = st.connected := by
  unfold onPresentationUpdate
  simp [fanout_fold_connected]

theorem onPresentationUpdate_mq_nodup (st : ServerState) (sender : Nat) (p : MsgData)
    (h : KeysNodup st.messageQueue) :
    KeysNodup (onPresentationUpdate st sender p).1.messageQueue := by
  unfold onPresentationUpdate
  exact fanout_fold_mq_nodup _ _ h

theorem onPresentationUpdate_mq_append (st : ServerState) (sender w : Nat) (m : Meta)
    (p : MsgData) (hn : KeysNodup st.presentationWindows)
    (hm : mapGet st.presentationWindows w = some m) (hw : w ∉ st.connected) :
    mapGet (onPresentationUpdate st sender p).1.messageQueue w
      = some ((mapGet st.messageQueue w).getD []
          ++ [⟨EvName.presentationUpdate, MsgData.meta m⟩]) := by
  unfold onPresentationUpdate
  exact fanout_fold_mq_append _ _ w m hn (mem_of_mapGet_eq_some _ _ _ hm) hw

theorem broadcastStep_pw (sender : Nat) (acc : ServerState × List Emission) (p : MsgData) :
    (broadcastStep sender acc p).1.presentationWindows = acc.1.presentationWindows := by
  unfold broadcastStep
  simp [onPresentationUpdate_pw]

theorem broadcastStep_connected (sender : Nat) (acc : ServerState × List Emission)
    (p : MsgData) :
    (broadcastStep sender acc p).1.connected = acc.1.connected := by
  unfold broadcastStep
  simp [onPresentationUpdate_connected]

theorem broadcastStep_mq_nodup (sender : Nat) (acc : ServerState × List Emission)
    (p : MsgData) (h : KeysNodup acc.1.messageQueue) :
    KeysNodup (broadcastStep sender acc p).1.messageQueue := by
  unfold broadcastStep
  simp only
  exact onPresentationUpdate_mq_nodup _ _ _ h

theorem broadcast_fold_queue (sender d : Nat) (m : Meta) (ps : List MsgData) :
    ∀ acc : ServerState × List Emission,
    KeysNodup acc.1.presentationWindows →
    mapGet acc.1.presentationWindows d = some m → d ∉ acc.1.connected →
    (mapGet (ps.foldl (broadcastStep sender) acc).1.messageQueue d).getD []
      = (mapGet acc.1.messageQueue d).getD []
        ++ List.replicate ps.length (⟨EvName.presentationUpdate, MsgData.meta m⟩ : QueuedMsg) := by
  induction ps with
  | nil => intro acc _ _ _; simp
  | cons p ps ih =>
    intro acc hn hm hc
    rw [List.foldl_cons]
    rw [ih _ (by rw [broadcastStep_pw]; exact hn)
          (by rw [broadcastStep_pw]; exact hm)
          (by rw [broadcastStep_connected]; exact hc)]
    have hstep : mapGet (broadcastStep sender acc p).1.messageQueue d
        = some ((mapGet acc.1.messageQueue d).getD []
            ++ [⟨EvName.presentationUpdate, MsgData.meta m⟩]) := by
      unfold broadcastStep
      simp only
      exact onPresentationUpdate_mq_append acc.1 sender d m p hn hm hc
    rw [hstep]
    simp [List.replicate_succ]

theorem broadcast_fold_mq_nodup (sender : Nat) (ps : List MsgData) :
    ∀ acc : ServerState × List Emission, KeysNodup acc.1.messageQueue →
    KeysNodup (ps.foldl (broadcastStep sender) acc).1.messageQueue := by
  induction ps with
  | nil => intro acc h; exact h
  | cons p ps ih =>
    intro acc h
    rw [List.foldl_cons]
    exact ih _ (broadcastStep_mq_nodup sender acc p h)

/-- The emissions of the eviction step of the heartbeat sweep for a
timed-out, still-connected socket: exactly the disconnect handler's
notifications — nothing when the socket was not a registered display,
otherwise one `presentationDisconnected` to each connected control panel
other than the evicted socket, carrying the control's own id. -/
theorem sweepStep_ems (now : Nat) (st : ServerState) (d tb : Nat)
    (ht : HEARTBEAT_TIMEOUT < now - tb) (hc : d ∈ st.connected) :
    (sweepStep now (st, []) (d, tb)).2
      = if mapHas st.presentationWindows d then
          (st.controlPanels.filter (fun c => decide (c.1 ∈ st.connected ∧ c.1 ≠ d))).map
            (fun c => ⟨c.1, EvName.presentationDisconnected, MsgData.idField c.1⟩)
        else [] := by
  have hstep : (sweepStep now (st, []) (d, tb)).2 = (onDisconnect st d).2 := by
    unfold sweepStep
    simp only [if_pos ht, if_pos hc, List.nil_append]
  rw [hstep]
  by_cases h : mapHas st.presentationWindows d = true
  · rw [if_pos h]
    exact onDisconnect_ems st d h
  · rw [if_neg h, onDisconnect_eq, if_neg h]

/-! ### The claims -/

/-- C1 (code bug): the relay does NOT forward a `presentationUpdate`
payload verbatim.  With display 1 registered (metadata `⟨10, 10⟩`) and
connected, a control sending the payload `song = 7, segment = 8` causes
display 1 to receive a `presentationUpdate` whose data is the display's
own registry metadata — the `presentationWindows.forEach` callback
parameter `data` (part_001 line 209) shadows the handler's payload
argument, so the metadata value of the map entry is emitted instead of
the payload. -/
theorem c1_forwards_metadata_not_payload :
    (onPresentationUpdate c1State 2 (MsgData.payload ⟨some 7, some 8⟩)).2.1
      = [⟨1, EvName.presentationUpdate, MsgData.meta ⟨10, 10⟩⟩] ∧
    MsgData.meta ⟨10, 10⟩ ≠ MsgData.payload ⟨some 7, some 8⟩ := by decide

/-- C2 (counterexample): registering the same identifier under a second
role does NOT overwrite the first.  After socket 1 registers as a display
and then as a control, it is present in BOTH role maps, and a subsequent
broadcast fan-out still treats it as a display (it receives the
`presentationUpdate`), contradicting "the identifier is classified under
at most one role at a time" and "fan-out treats the identifier only
according to the latest role". -/
theorem c2_counterexample :
    (let st1 := (onRegisterPresentation (onConnection emptyState 1 0).1 1 0 MsgData.noData).1
     let st2 := (onRegisterControl st1 1 5 MsgData.noData).1
     mapHas st2.presentationWindows 1 = true ∧
     mapHas st2.controlPanels 1 = true ∧
     (onPresentationUpdate st2 7 (MsgData.payload ⟨some 1, none⟩)).2.1
       = [⟨1, EvName.presentationUpdate, MsgData.meta ⟨0, 0⟩⟩]) := by decide

/-- C2 (amended): registering an identifier under a second role adds it to
the second role's registry without removing it from the first — after
`registerPresentation` followed by `registerControl` the identifier holds
both roles, each with the metadata stamped at its own registration time
(re-registering with the same role overwrites only that role's
metadata). -/
theorem c2_amended (st : ServerState) (id now now2 : Nat) (rd rd2 : MsgData) :
    mapGet ((onRegisterControl (onRegisterPresentation st id now rd).1
        id now2 rd2).1).presentationWindows id = some ⟨now, now⟩ ∧
    mapGet ((onRegisterControl (onRegisterPresentation st id now rd).1
        id now2 rd2).1).controlPanels id = some ⟨now2, now2⟩ := by
  constructor
  · simp [onRegisterPresentation, onRegisterControl, mapGet_mapSet_self]
  · simp [onRegisterPresentation, onRegisterControl, mapGet_mapSet_self]

/-- C3 (counterexample): a display that disconnects (its `disconnect`
event fires), misses one broadcast and then reconnects and re-registers
receives NOTHING: the disconnect handler deletes both the registry entry
and the mailbox, so the broadcast issued while it was away is neither
delivered nor queued — not "exactly those N updates" (here N = 1, received
0). -/
theorem c3_counterexample :
    (let a := onConnection emptyState 1 0
     let b := onRegisterPresentation a.1 1 0 MsgData.noData
     let c := onConnection b.1 2 0
     let d := onRegisterControl c.1 2 0 MsgData.noData
     let e := onDisconnect d.1 1
     let f := onPresentationUpdate e.1 2 (MsgData.payload ⟨some 1, some 1⟩)
     let g := onConnection f.1 1 1000
     let h := onRegisterPresentation g.1 1 1000 MsgData.noData
     f.2.2 = Ack.success ∧
     updatesTo (a.2 ++ b.2.1 ++ c.2 ++ d.2.1 ++ e.2 ++ f.2.1 ++ g.2 ++ h.2.1) 1 = []) := by
  decide

/-- C3 (amended): only a display whose transport became unreachable
WITHOUT its disconnect event firing (so it is still registered) has
broadcasts queued for it; upon reconnection the flushed mailbox delivers
exactly one `presentationUpdate` event per broadcast issued meanwhile, in
issue order, exactly once (the mailbox is deleted) — but each event
carries the display's registry metadata rather than the broadcast
payload, because of the shadowing bug in the fan-out loop. -/
theorem c3_amended (st : ServerState) (sender d tNow : Nat) (m : Meta) (ps : List MsgData)
    (hn : KeysNodup st.presentationWindows) (hq : KeysNodup st.messageQueue)
    (hm : mapGet st.presentationWindows d = some m) (hc : d ∉ st.connected)
    (h0 : mapGet st.messageQueue d = none) :
    (onConnection (broadcastList st sender ps).1 d tNow).2
      = List.replicate ps.length (⟨d, EvName.presentationUpdate, MsgData.meta m⟩ : Emission) ∧
    mapGet (onConnection (broadcastList st sender ps).1 d tNow).1.messageQueue d = none := by
  have hq1 : (mapGet (broadcastList st sender ps).1.messageQueue d).getD []
      = List.replicate ps.length (⟨EvName.presentationUpdate, MsgData.meta m⟩ : QueuedMsg) := by
    unfold broadcastList
    rw [broadcast_fold_queue sender d m ps (st, []) hn hm hc]
    simp [h0]
  have hq2 : KeysNodup (broadcastList st sender ps).1.messageQueue := by
    unfold broadcastList
    exact broadcast_fold_mq_nodup sender ps (st, []) hq
  constructor
  · simp only [onConnection]
    rw [hq1, List.map_replicate]
  · simp only [onConnection]
    exact mapGet_mapDelete_self _ _ hq2

/-- C3 (witness): the amended claim evaluated at a concrete state — a
registered, unreachable display misses two broadcasts; on reconnection it
receives exactly two `presentationUpdate` events (carrying its registry
metadata) and its mailbox is cleared. -/
theorem c3_amended_witness :
    (KeysNodup c3wState.presentationWindows ∧ KeysNodup c3wState.messageQueue ∧
     mapGet c3wState.presentationWindows 1 = some ⟨0, 0⟩ ∧ 1 ∉ c3wState.connected ∧
     mapGet c3wState.messageQueue 1 = none) ∧
    ((onConnection (broadcastList c3wState 9
        [MsgData.payload ⟨some 1, none⟩, MsgData.payload ⟨some 2, none⟩]).1 1 500).2
       = List.replicate 2 (⟨1, EvName.presentationUpdate, MsgData.meta ⟨0, 0⟩⟩ : Emission) ∧
     mapGet (onConnection (broadcastList c3wState 9
        [MsgData.payload ⟨some 1, none⟩, MsgData.payload ⟨some 2, none⟩]).1 1 500).1.messageQueue 1
       = none) :=
  ⟨⟨by decide, by decide, by decide, by decide, by decide⟩,
   c3_amended c3wState 9 1 500 ⟨0, 0⟩
     [MsgData.payload ⟨some 1, none⟩, MsgData.payload ⟨some 2, none⟩]
     (by decide) (by decide) (by decide) (by decide) (by decide)⟩

/-- C4 (code bug): a ping updates only the `heartbeats` map, never the
role registry's `lastHeartbeat` metadata, which is stamped only at
registration — so a display that registered at time 0 and pinged as
recently as time 300000 survives the heartbeat-driven sweep but has its
registry entry reclaimed by the stale sweep at time 300001, contradicting
"a connection that pings within every timeout window ... nor has its
registry entry reclaimed by the secondary staleness sweep". -/
theorem c4_ping_does_not_protect_registry :
    (let st1 := (onConnection emptyState 1 0).1
     let st2 := (onRegisterPresentation st1 1 0 MsgData.noData).1
     let st3 := (onPing st2 1 300000).1
     mapGet st3.heartbeats 1 = some 300000 ∧
     mapGet st3.presentationWindows 1 = some ⟨0, 0⟩ ∧
     (heartbeatSweep 300001 st3).1.presentationWindows = st3.presentationWindows ∧
     mapGet (staleSweep 300001 st3).presentationWindows 1 = none) := by decide

/-- C5 (code bug): when display 1 disconnects while control 2 is
connected, the `presentationDisconnected` event delivered to control 2
carries `id = 2` — the control's OWN identifier, not the departed
display's — because the inner `const socket` of the notification loop
(part_001 line 243) shadows the disconnecting socket, so `socket.id` at
line 245 is the control's id. -/
theorem c5_notifies_with_controls_own_id :
    (onDisconnect c5State 1).2
      = [⟨2, EvName.presentationDisconnected, MsgData.idField 2⟩] ∧
    MsgData.idField 2 ≠ MsgData.idField 1 := by decide

/-- C6 (confirmed): every `presentationUpdate` fan-out handles each
registered display independently — a connected display receives an
emission, a disconnected one gets exactly one entry appended to its
mailbox — and the sender's acknowledgement is `success` regardless of how
many targets were queued rather than delivered. -/
theorem c6_fanout_independent (st : ServerState) (sender : Nat) (p : MsgData)
    (hw : KeysNodup st.presentationWindows) :
    (onPresentationUpdate st sender p).2.2 = Ack.success ∧
    ∀ w m, (w, m) ∈ st.presentationWindows →
      (w ∈ st.connected →
        (⟨w, EvName.presentationUpdate, MsgData.meta m⟩ : Emission)
          ∈ (onPresentationUpdate st sender p).2.1) ∧
      (w ∉ st.connected →
        mapGet (onPresentationUpdate st sender p).1.messageQueue w
          = some ((mapGet st.messageQueue w).getD []
              ++ [⟨EvName.presentationUpdate, MsgData.meta m⟩])) := by
  refine ⟨rfl, ?_⟩
  intro w m hmem
  constructor
  · intro hc
    exact fanout_fold_emits st.presentationWindows (st, []) w m hmem hc
  · intro hc
    exact fanout_fold_mq_append st.presentationWindows (st, []) w m hw hmem hc

/-- C6 (witness): the fan-out property evaluated at a concrete state with
one connected display (1) and one unreachable display (3). -/
theorem c6_fanout_witness :
    KeysNodup c6State.presentationWindows ∧
    ((onPresentationUpdate c6State 5 (MsgData.payload ⟨some 1, none⟩)).2.2 = Ack.success ∧
     ∀ w m, (w, m) ∈ c6State.presentationWindows →
       (w ∈ c6State.connected →
         (⟨w, EvName.presentationUpdate, MsgData.meta m⟩ : Emission)
           ∈ (onPresentationUpdate c6State 5 (MsgData.payload ⟨some 1, none⟩)).2.1) ∧
       (w ∉ c6State.connected →
         mapGet (onPresentationUpdate c6State 5 (MsgData.payload ⟨some 1, none⟩)).1.messageQueue w
           = some ((mapGet c6State.messageQueue w).getD []
               ++ [⟨EvName.presentationUpdate, MsgData.meta m⟩]))) :=
  ⟨by decide, c6_fanout_independent c6State 5 (MsgData.payload ⟨some 1, none⟩) (by decide)⟩

/-- C7 (code bug): a continuously connected display receives one
`presentationUpdate` event per broadcast, in issue order — but NOT "those
updates": with display 1 registered (metadata `⟨5, 5⟩`) and two broadcasts
of distinct payloads, both received events carry the display's registry
metadata, and the received data list differs from the issued payload
list (the shadowing bug at part_001 line 209). -/
theorem c7_order_kept_but_content_wrong :
    (let r := broadcastList c7State 2
       [MsgData.payload ⟨some 1, none⟩, MsgData.payload ⟨some 2, some 3⟩]
     updatesTo r.2 1
       = [⟨1, EvName.presentationUpdate, MsgData.meta ⟨5, 5⟩⟩,
          ⟨1, EvName.presentationUpdate, MsgData.meta ⟨5, 5⟩⟩] ∧
     (updatesTo r.2 1).map Emission.data
       ≠ [MsgData.payload ⟨some 1, none⟩, MsgData.payload ⟨some 2, some 3⟩]) := by decide

/-- C8 (counterexample): a timed-out connection whose socket object is
gone (transport dropped without the disconnect event) is NOT removed from
the registry by the heartbeat sweep: only its `heartbeats` entry is
deleted, while its `presentationWindows` entry and mailbox survive,
contradicting "eviction removes that connection from the registry (its
role map entry and mailbox are deleted)". -/
theorem c8_counterexample :
    (let r := heartbeatSweep 70000 c8ExState
     HEARTBEAT_TIMEOUT < 70000 - 0 ∧
     mapGet r.1.heartbeats 1 = none ∧
     mapGet r.1.presentationWindows 1 = some ⟨0, 0⟩ ∧
     mapGet r.1.messageQueue 1
       = some [⟨EvName.presentationUpdate, MsgData.meta ⟨0, 0⟩⟩]) := by decide

/-- C8 (amended): a timed-out connection whose socket still exists is
force-disconnected by the heartbeat sweep, which does remove its role map
entries, mailbox and heartbeat; the notifications of its eviction step are
those of the disconnect handler — sent only to currently CONNECTED control
panels (not all registered ones), and carrying each control's own id. -/
theorem c8_amended (st : ServerState) (now d tb : Nat)
    (hwf : WF st) (hmem : (d, tb) ∈ st.heartbeats)
    (ht : HEARTBEAT_TIMEOUT < now - tb) (hc : d ∈ st.connected) :
    (mapGet (heartbeatSweep now st).1.presentationWindows d = none ∧
     mapGet (heartbeatSweep now st).1.controlPanels d = none ∧
     mapGet (heartbeatSweep now st).1.messageQueue d = none ∧
     mapGet (heartbeatSweep now st).1.heartbeats d = none) ∧
    (sweepStep now (st, []) (d, tb)).2
      = (if mapHas st.presentationWindows d then
           (st.controlPanels.filter (fun c => decide (c.1 ∈ st.connected ∧ c.1 ≠ d))).map
             (fun c => ⟨c.1, EvName.presentationDisconnected, MsgData.idField c.1⟩)
         else []) := by
  constructor
  · unfold heartbeatSweep
    exact sweep_fold_removes now d tb st.heartbeats (st, []) hwf.2.2.2 hmem ht hc hwf
  · exact sweepStep_ems now st d tb ht hc

/-- C8 (witness): the amended claim at a concrete state — display 1 timed
out (last beat 0, now 70000) with a live socket; the sweep removes all its
entries and notifies the connected control 2 (with the control's own
id). -/
theorem c8_amended_witness :
    (WF c8wState ∧ (1, 0) ∈ c8wState.heartbeats ∧
     HEARTBEAT_TIMEOUT < 70000 - 0 ∧ 1 ∈ c8wState.connected) ∧
    ((mapGet (heartbeatSweep 70000 c8wState).1.presentationWindows 1 = none ∧
      mapGet (heartbeatSweep 70000 c8wState).1.controlPanels 1 = none ∧
      mapGet (heartbeatSweep 70000 c8wState).1.messageQueue 1 = none ∧
      mapGet (heartbeatSweep 70000 c8wState).1.heartbeats 1 = none) ∧
     (sweepStep 70000 (c8wState, []) (1, 0)).2
       = (if mapHas c8wState.presentationWindows 1 then
            (c8wState.controlPanels.filter
                (fun c => decide (c.1 ∈ c8wState.connected ∧ c.1 ≠ 1))).map
              (fun c => ⟨c.1, EvName.presentationDisconnected, MsgData.idField c.1⟩)
          else [])) :=
  ⟨⟨by decide, by decide, by decide, by decide⟩,
   c8_amended c8wState 70000 1 0 (by decide) (by decide) (by decide) (by decide)⟩

/-- C9 (counterexample): a duplicate registration (socket 1 registers as
control twice) is acknowledged with `success`, not through the `error`
field, and the role metadata is overwritten rather than the attempt being
rejected; the connection also stays open. -/
theorem c9_counterexample :
    (let st1 := (onRegisterControl (onConnection emptyState 1 0).1 1 0 MsgData.noData).1
     let r := onRegisterControl st1 1 5 (MsgData.idField 99)
     r.2.2 = Ack.success ∧ (∀ msg, r.2.2 ≠ Ack.error msg) ∧
     mapGet r.1.controlPanels 1 = some ⟨5, 5⟩ ∧ 1 ∈ r.1.connected) := by
  refine ⟨by decide, ?_, by decide, by decide⟩
  intro msg h
  exact Ack.noConfusion h

/-- C9 (amended): registration never fails — for every state, identifier
and (arbitrary, even malformed) registration data, both registration
handlers acknowledge `success`, record the role with fresh metadata,
ignore the data argument entirely, and leave the connection open (the
`error` acknowledgement branch is reachable only from an exception, and
nothing in the handler bodies can throw). -/
theorem c9_amended (st : ServerState) (id now : Nat) (rd rd2 : MsgData) :
    (onRegisterPresentation st id now rd).2.2 = Ack.success ∧
    (onRegisterControl st id now rd).2.2 = Ack.success ∧
    mapGet (onRegisterPresentation st id now rd).1.presentationWindows id = some ⟨now, now⟩ ∧
    mapGet (onRegisterControl st id now rd).1.controlPanels id = some ⟨now, now⟩ ∧
    (onRegisterPresentation st id now rd).1.connected = st.connected ∧
    (onRegisterControl st id now rd).1.connected = st.connected ∧
    onRegisterPresentation st id now rd = onRegisterPresentation st id now rd2 ∧
    onRegisterControl st id now rd = onRegisterControl st id now rd2 := by
  refine ⟨rfl, rfl, ?_, ?_, rfl, rfl, rfl, rfl⟩
  · simp [onRegisterPresentation, mapGet_mapSet_self]
  · simp [onRegisterControl, mapGet_mapSet_self]

/-- C10 (confirmed): the `presentationUpdate` handler performs no role
check on the sender — its entire result (new state, emissions,
acknowledgement) is independent of the sender's identity, the
acknowledgement is `success` for every sender, and the fan-out reaches
every registered connected display no matter who sent the update. -/
theorem c10_no_sender_role_check (st : ServerState) (p : MsgData) (s1 s2 : Nat) :
    onPresentationUpdate st s1 p = onPresentationUpdate st s2 p ∧
    (onPresentationUpdate st s1 p).2.2 = Ack.success ∧
    ∀ w m, (w, m) ∈ st.presentationWindows → w ∈ st.connected →
      (⟨w, EvName.presentationUpdate, MsgData.meta m⟩ : Emission)
        ∈ (onPresentationUpdate st s1 p).2.1 := by
  refine ⟨rfl, rfl, ?_⟩
  intro w m hmem hc
  exact fanout_fold_emits st.presentationWindows (st, []) w m hmem hc

end ChurchRelay
